import Mathlib

/-!
# EchoX core verification

Shallow embedding of the EchoX repository's core logic, together with
theorems settling the frozen claims about it.

Embedded components and their sources:

* the interest filter `filterTweetsByInterests`, defined identically in
  `src/app/api/trending/route.ts` and in
  `src/hooks/useXAITweetsWithCache.ts`;
* the cache writer `CacheService.saveTrending` and freshness test
  `isExpired` from `src/services/cacheService.ts` and
  `src/app/api/trending/route.ts`;
* the tiered `GET /api/trending` handler from
  `src/app/api/trending/route.ts` and the client fetch strategy
  `refetchTrending` from `src/hooks/useXAITweetsWithCache.ts`;
* the raw-PCM decoder `decodeAudioData` and the playback primitive
  `AudioController` from the audio service module;
* the feed controller handlers (`handleNext`, `handlePrev`,
  `handleTrackEnd`, the track-load effect and its continuation) from
  `src/components/Feed.tsx`.

Machine integers are modelled as `Nat`/`Int` (JavaScript numbers stay far
below 2^53 here, so no wrap-around is modelled); clock reads (`new Date()`,
`Date.now()`) are explicit parameters; asynchronous completions are
explicit transition functions on a controller state; observable side
effects (network calls, playback starts) are explicit event lists.
-/

/-! ## Data model

The `Tweet` payload from `src/types.ts`.  Only the fields the verified
code paths inspect are carried with structure; the code treats the rest of
the payload (user, timestamp, media, topTweets, ...) as opaque data that
is stored and returned unchanged, so those fields are irrelevant to every
claim and are not modelled.
-/

structure Tweet where
  id : String
  content : String
  topic : Option String
  podcastScript : Option String
  trendTitle : Option String
  audioUrl : Option String
  likes : Nat
  retweets : Nat
  deriving DecidableEq, Repr

/-! ## String helpers

JavaScript string operations used by the filter, modelled on ASCII
character lists.  `jsIncludes s sub` is the JavaScript call
`s.includes(sub)` (contiguous-substring test); `jsLower` is
`toLowerCase`, modelled characterwise.
-/

def listStartsWith : List Char → List Char → Bool
  | _, [] => true
  | [], _ :: _ => false
  | a :: as, b :: bs => a == b && listStartsWith as bs

def listContainsSeq (l sub : List Char) : Bool :=
  listStartsWith l sub ||
    match l with
    | [] => false
    | _ :: as => listContainsSeq as sub

def jsIncludes (s sub : String) : Bool :=
  listContainsSeq s.toList sub.toList

def jsLower (s : String) : String :=
  String.mk (s.toList.map Char.toLower)

theorem listContainsSeq_nil (l : List Char) : listContainsSeq l [] = true := by
  unfold listContainsSeq
  simp [listStartsWith]

theorem jsIncludes_empty (s : String) : jsIncludes s "" = true := by
  unfold jsIncludes
  simpa using listContainsSeq_nil s.toList

/-! ## InterestFilter

`filterTweetsByInterests` appears twice in the repository, with
character-identical matching logic: as a module-level function in
`src/app/api/trending/route.ts` (lines 92-114) and as a local helper in
`src/hooks/useXAITweetsWithCache.ts` (lines 234-256).  One definition
embeds both.
-/

def interestMatches (topic interest : String) : Bool :=
  if topic == interest then true
  else if jsIncludes topic interest || jsIncludes interest topic then true
  else if interest == "tech" && (topic == "ai" || topic == "technology") then true
  else if interest == "crypto" && (topic == "cryptocurrency" || topic == "blockchain") then true
  else false

def tweetPassesInterests (normalizedInterests : List String) (tweet : Tweet) : Bool :=
  let topic := jsLower (tweet.topic.getD "")
  normalizedInterests.any fun interest => interestMatches topic interest

def filterTweetsByInterests (tweets : List Tweet) (interests : List String) : List Tweet :=
  if interests.isEmpty then tweets
  else
    let normalizedInterests := interests.map jsLower
    tweets.filter (tweetPassesInterests normalizedInterests)

theorem filter_self_idem {α : Type} (p : α → Bool) (l : List α) :
    (l.filter p).filter p = l.filter p := by
  induction l with
  | nil => rfl
  | cons a as ih =>
    by_cases h : p a = true
    · simp [List.filter, h, ih]
    · simp [List.filter, Bool.of_not_eq_true h, ih]

/-- C7: for every item list and every interest set,
`filterTweetsByInterests` returns a sublist of the input (hence a subset,
order preserved); applying it twice with the same interests equals
applying it once; and with the empty interest set it returns the input
list unchanged. -/
theorem filterTweetsByInterests_subset_idem_empty
    (tweets : List Tweet) (interests : List String) :
    (filterTweetsByInterests tweets interests).Sublist tweets ∧
    filterTweetsByInterests (filterTweetsByInterests tweets interests) interests =
      filterTweetsByInterests tweets interests ∧
    filterTweetsByInterests tweets [] = tweets := by
  refine ⟨?_, ?_, rfl⟩
  · unfold filterTweetsByInterests
    by_cases h : interests.isEmpty
    · simp [h]
    · simp only [h, if_false]
      exact List.filter_sublist tweets
  · unfold filterTweetsByInterests
    by_cases h : interests.isEmpty
    · simp [h]
    · simp only [h, if_false]
      exact filter_self_idem _ tweets

/-- C10: with a non-empty interest list, every item whose topic is missing
or empty passes the filter, because the normalized empty topic is a
substring of every interest (the `interest.includes(topic)` branch of the
predicate is always true for an empty topic). -/
theorem empty_topic_always_kept
    (tweets : List Tweet) (interests : List String) (t : Tweet)
    (hne : interests ≠ [])
    (ht : t ∈ tweets)
    (htopic : t.topic = none ∨ t.topic = some "") :
    t ∈ filterTweetsByInterests tweets interests := by
  have hempty : ¬ interests.isEmpty := by
    simpa [List.isEmpty_iff] using hne
  have htop : jsLower (t.topic.getD "") = "" := by
    rcases htopic with h | h <;> simp [h, jsLower]
  unfold filterTweetsByInterests
  simp only [hempty, if_false]
  refine List.mem_filter.mpr ⟨ht, ?_⟩
  unfold tweetPassesInterests
  rcases interests with _ | ⟨i, rest⟩
  · exact absurd rfl hne
  · simp only [List.map_cons, List.any_cons, Bool.or_eq_true]
    left
    rw [htop]
    unfold interestMatches
    by_cases hdir : ("" == jsLower i) = true
    · simp [hdir]
    · have : jsIncludes (jsLower i) "" = true := jsIncludes_empty _
      simp [hdir, this]

/-- Closed witness for the hypotheses of the C10 theorem at a concrete
tweet with a missing topic and the interest list used by the client hook
by default. -/
theorem empty_topic_always_kept_witness :
    let t : Tweet :=
      { id := "t1", content := "hello", topic := none, podcastScript := none,
        trendTitle := none, audioUrl := none, likes := 0, retweets := 0 }
    t ∈ filterTweetsByInterests [t] ["AI", "Tech"] := by
  intro t
  exact empty_topic_always_kept [t] ["AI", "Tech"] t (by decide)
    (List.mem_singleton.mpr rfl) (Or.inl rfl)

/-! ## ContentStore writer

`CacheService.saveTrending` from `src/services/cacheService.ts` (lines
159-186).  The code reads the clock twice: once to build `expiresAt`
(`new Date()` followed by `setMinutes(+CACHE_TTL_MINUTES)`, which adds
exactly 30 minutes of epoch milliseconds) and once more to build
`generatedAt` (`new Date().toISOString()`).  Both reads are explicit
parameters, in the order the code performs them; times are epoch
milliseconds.
-/

def CACHE_TTL_MINUTES : Nat := 30

structure CacheRecord where
  tweet_id : String
  generated_at : Nat
  expires_at : Nat
  tweet_data : Tweet
  version : Nat
  deriving DecidableEq, Repr

def saveTrendingRecords (tweets : List Tweet)
    (tExpiresBase tGenerated : Nat) : List CacheRecord :=
  tweets.map fun tweet =>
    { tweet_id := tweet.id
      generated_at := tGenerated
      expires_at := tExpiresBase + CACHE_TTL_MINUTES * 60 * 1000
      tweet_data := tweet
      version := 1 }

def sampleTweet : Tweet :=
  { id := "trend-1", content := "sample", topic := some "ai",
    podcastScript := none, trendTitle := none, audioUrl := none,
    likes := 0, retweets := 0 }

/-- C6 counterexample: the claim says every row's `expires_at` equals
`generated_at` plus exactly 30 minutes, but `saveTrending` derives
`expires_at` from a clock read taken before the one that yields
`generated_at`; if the clock advances one millisecond between the two
`new Date()` calls (first read 0, second read 1), the single inserted row
has `expires_at = 1800000` while `generated_at + 30 minutes = 1800001`. -/
theorem saveTrending_expiry_counterexample :
    ((saveTrendingRecords [sampleTweet] 0 1).map fun r => r.expires_at) = [1800000] ∧
    ((saveTrendingRecords [sampleTweet] 0 1).map fun r =>
      r.generated_at + 30 * 60 * 1000) = [1800001] := by
  constructor <;> rfl

/-- C6 amended: for every item list, `saveTrending` inserts one row per
item, in order, carrying that item as payload; every row shares the same
`generated_at` batch key; every row's `expires_at` equals the clock
reading taken immediately before `generated_at` plus exactly 30 minutes,
so the expiry is uniform across the batch; and whenever the two
consecutive clock readings coincide, `expires_at` equals `generated_at`
plus exactly 30 minutes. -/
theorem saveTrending_batch_rows (tweets : List Tweet)
    (tExpiresBase tGenerated : Nat) :
    (saveTrendingRecords tweets tExpiresBase tGenerated).length = tweets.length ∧
    ((saveTrendingRecords tweets tExpiresBase tGenerated).map fun r => r.tweet_data)
      = tweets ∧
    (∀ r ∈ saveTrendingRecords tweets tExpiresBase tGenerated,
      r.generated_at = tGenerated ∧
      r.expires_at = tExpiresBase + 30 * 60 * 1000 ∧
      r.tweet_id = r.tweet_data.id ∧ r.version = 1) ∧
    (tExpiresBase = tGenerated →
      ∀ r ∈ saveTrendingRecords tweets tExpiresBase tGenerated,
        r.expires_at = r.generated_at + 30 * 60 * 1000) := by
  refine ⟨by simp [saveTrendingRecords], ?_, ?_, ?_⟩
  · induction tweets with
    | nil => rfl
    | cons a as ih =>
      simp only [saveTrendingRecords, List.map_cons] at ih ⊢
      rw [ih]
  · intro r hr
    unfold saveTrendingRecords at hr
    simp only [List.mem_map] at hr
    obtain ⟨t, _, rfl⟩ := hr
    exact ⟨rfl, rfl, rfl, rfl⟩
  · intro heq r hr
    unfold saveTrendingRecords at hr
    simp only [List.mem_map] at hr
    obtain ⟨t, _, rfl⟩ := hr
    simp [heq, CACHE_TTL_MINUTES]

/-- Closed witness for the C6 amended theorem: instantiated at a one-item
batch with both clock reads at time 1000, the inserted row expires exactly
30 minutes after its `generated_at`. -/
theorem saveTrending_batch_rows_witness :
    ∀ r ∈ saveTrendingRecords [sampleTweet] 1000 1000,
      r.expires_at = r.generated_at + 30 * 60 * 1000 :=
  (saveTrending_batch_rows [sampleTweet] 1000 1000).2.2.2 rfl

/-! ## ContentFetcher: the `GET /api/trending` route

From `src/app/api/trending/route.ts`.  The handler is modelled as a pure
function of the values the awaited collaborators return: the cached batch
(`cacheService.getTrending`), whether the live-generation service is
configured (`getXAIService()` non-null), the tweets a live generation
would produce, and the current clock (`Date.now()`).  Observable calls
are returned as an ordered effect list: the cache read always happens
first, the background refresh (`refreshTrendingInBackground`, lines
121-136) is fired without being awaited before the stale response is
returned, and the live-generation and cache-write calls happen only on
the no-cache path.  Query-string parsing of `interests` is outside the
model; the parsed list arrives as `Option (List String)` exactly as the
handler's local `interests` variable does.
-/

structure CachedBatch where
  tweets : List Tweet
  generatedAt : Nat
  deriving DecidableEq, Repr

structure TrendingResponse where
  tweets : List Tweet
  cached : Bool
  stale : Bool
  status : Nat
  deriving DecidableEq, Repr

inductive RouteEffect where
  | cacheRead : RouteEffect
  | backgroundRefresh (interests : Option (List String)) : RouteEffect
  | liveGenerate (interests : Option (List String)) : RouteEffect
  | saveCache (tweets : List Tweet) : RouteEffect
  deriving DecidableEq, Repr

def isExpired (generatedAt now : Nat) : Bool :=
  decide (30 * 60 * 1000 < now - generatedAt)

def applyInterests (tweets : List Tweet) (interests : Option (List String)) :
    List Tweet :=
  match interests with
  | none => tweets
  | some l => if 0 < l.length then filterTweetsByInterests tweets l else tweets

def trendingGET (interests : Option (List String)) (cached : Option CachedBatch)
    (xaiConfigured : Bool) (liveTweets : List Tweet) (now : Nat) :
    TrendingResponse × List RouteEffect :=
  match cached with
  | some c =>
    if isExpired c.generatedAt now = false then
      ({ tweets := applyInterests c.tweets interests,
         cached := true, stale := false, status := 200 },
       [RouteEffect.cacheRead])
    else
      ({ tweets := applyInterests c.tweets interests,
         cached := true, stale := true, status := 200 },
       [RouteEffect.cacheRead, RouteEffect.backgroundRefresh interests])
  | none =>
    if xaiConfigured then
      ({ tweets := liveTweets, cached := false, stale := false, status := 200 },
       [RouteEffect.cacheRead, RouteEffect.liveGenerate interests,
        RouteEffect.saveCache liveTweets])
    else
      ({ tweets := [], cached := false, stale := false, status := 500 },
       [RouteEffect.cacheRead])

/-! ## ContentFetcher: the client hook

`refetchTrending` from `src/hooks/useXAITweetsWithCache.ts` (lines
259-328).  Strategy 1 calls the `/api/trending` endpoint and accepts any
response whose body has a `tweets` field (even an empty array); strategy 2
reads the Supabase cache directly; strategy 3 deliberately sets an error
message instead of calling the live-generation service.  The awaited
results of the two tiers are parameters; a `hookLiveGenerate` effect
constructor exists so that its absence from every reachable effect list is
a meaningful statement.
-/

structure ApiTrendingBody where
  tweets : List Tweet
  cached : Bool
  stale : Bool
  empty : Bool
  deriving DecidableEq, Repr

inductive HookEffect where
  | hookApiFetch : HookEffect
  | hookDirectRead : HookEffect
  | hookLiveGenerate : HookEffect
  deriving DecidableEq, Repr

structure HookOutcome where
  trendingTweets : List Tweet
  isUsingCache : Bool
  errorMsg : Option String
  deriving DecidableEq, Repr

def refetchTrending (apiBody : Option ApiTrendingBody)
    (directCache : Option (List Tweet)) : HookOutcome × List HookEffect :=
  match apiBody with
  | some body =>
    ({ trendingTweets := body.tweets, isUsingCache := body.cached,
       errorMsg := none },
     [HookEffect.hookApiFetch])
  | none =>
    match directCache with
    | some cachedTweets =>
      if 0 < cachedTweets.length then
        ({ trendingTweets := cachedTweets, isUsingCache := true,
           errorMsg := none },
         [HookEffect.hookApiFetch, HookEffect.hookDirectRead])
      else
        ({ trendingTweets := [], isUsingCache := false,
           errorMsg := some "No cached data available. Please wait for background refresh or run populate-db script." },
         [HookEffect.hookApiFetch, HookEffect.hookDirectRead])
    | none =>
      ({ trendingTweets := [], isUsingCache := false,
         errorMsg := some "No cached data available. Please wait for background refresh or run populate-db script." },
       [HookEffect.hookApiFetch, HookEffect.hookDirectRead])

def isBackgroundRefreshEffect : RouteEffect → Bool
  | RouteEffect.backgroundRefresh _ => true
  | _ => false

/-- C4: whenever the route handler finds a non-empty but expired cached
batch, it responds with the (interest-filtered) stale tweets flagged
`stale = true` and `cached = true`, and its effect trace is exactly one
cache read followed by exactly one background-refresh call, fired before
the response is returned and never awaited (the response does not depend
on its result). -/
theorem stale_batch_refresh_once
    (interests : Option (List String)) (xaiConfigured : Bool)
    (liveTweets : List Tweet) (now : Nat) (c : CachedBatch)
    (hexp : isExpired c.generatedAt now = true)
    (hne : c.tweets ≠ []) :
    (trendingGET interests (some c) xaiConfigured liveTweets now).1.stale = true ∧
    (trendingGET interests (some c) xaiConfigured liveTweets now).1.cached = true ∧
    (trendingGET interests (some c) xaiConfigured liveTweets now).1.status = 200 ∧
    (trendingGET interests (some c) xaiConfigured liveTweets now).1.tweets =
      applyInterests c.tweets interests ∧
    (trendingGET interests (some c) xaiConfigured liveTweets now).2 =
      [RouteEffect.cacheRead, RouteEffect.backgroundRefresh interests] ∧
    ((trendingGET interests (some c) xaiConfigured liveTweets now).2.filter
      isBackgroundRefreshEffect).length = 1 := by
  simp [trendingGET, hexp, isBackgroundRefreshEffect]

/-- Closed witness for C4: a one-tweet batch generated at time 0, queried
40 minutes later with no interests, yields the stale response and exactly
one background refresh. -/
theorem stale_batch_refresh_once_witness :
    (trendingGET none (some { tweets := [sampleTweet], generatedAt := 0 })
      true [] (40 * 60 * 1000)).1.stale = true ∧
    (trendingGET none (some { tweets := [sampleTweet], generatedAt := 0 })
      true [] (40 * 60 * 1000)).2 =
      [RouteEffect.cacheRead, RouteEffect.backgroundRefresh none] := by
  have h := stale_batch_refresh_once none true []
    (40 * 60 * 1000) { tweets := [sampleTweet], generatedAt := 0 }
    (by decide) (by decide)
  exact ⟨h.1, h.2.2.2.2.1⟩

/-- C5: the live-generation tier runs only when the cache tier yielded
nothing.  On the server route, whenever the cache read returned a batch,
the effect trace contains no live-generation call, and the cache read is
always the first effect (cache-first ordering); moreover any trace that
does contain a live-generation call is one where the cache returned
nothing.  The client hook never emits a live-generation call at all. -/
theorem live_tier_only_when_cache_empty
    (interests : Option (List String)) (cached : Option CachedBatch)
    (xaiConfigured : Bool) (liveTweets : List Tweet) (now : Nat)
    (c : CachedBatch) (hc : cached = some c) :
    (∀ i, RouteEffect.liveGenerate i ∉
      (trendingGET interests cached xaiConfigured liveTweets now).2) ∧
    (trendingGET interests cached xaiConfigured liveTweets now).2.head? =
      some RouteEffect.cacheRead ∧
    (∀ apiBody directCache,
      HookEffect.hookLiveGenerate ∉ (refetchTrending apiBody directCache).2) := by
  subst hc
  refine ⟨?_, ?_, ?_⟩
  · intro i hmem
    unfold trendingGET at hmem
    cases hexp : isExpired c.generatedAt now <;> simp [hexp] at hmem
  · unfold trendingGET
    cases hexp : isExpired c.generatedAt now <;> simp [hexp]
  · intro apiBody directCache hmem
    unfold refetchTrending at hmem
    rcases apiBody with _ | body
    · rcases directCache with _ | cachedTweets
      · simp at hmem
      · by_cases hlen : 0 < cachedTweets.length
        · simp [hlen] at hmem
        · simp [hlen] at hmem
    · simp at hmem

/-- Closed witness for C5: with a fresh cached batch present, the route
trace at a concrete input contains no live-generation effect. -/
theorem live_tier_only_when_cache_empty_witness :
    RouteEffect.liveGenerate none ∉
      (trendingGET none (some { tweets := [sampleTweet], generatedAt := 0 })
        true [sampleTweet] 1000).2 :=
  (live_tier_only_when_cache_empty none
    (some { tweets := [sampleTweet], generatedAt := 0 }) true [sampleTweet] 1000
    { tweets := [sampleTweet], generatedAt := 0 } rfl).1 none

/-! ## PlaybackEngine: PCM decoding

`decodeAudioData` from the audio service module (the claim's cited source,
lines 277-295): the input bytes are viewed as an `Int16Array` (16-bit
signed little-endian words on every supported platform; `xaiService.ts`'s
`decodePCM` makes the little-endian choice explicit with
`DataView.getInt16(i * 2, true)` and is semantically identical), the frame
count is the word count divided by the channel count, and each channel
sample is the word at `i * numChannels + channel` divided by 32768.
Sample values are modelled in `ℚ`; the two numbers the claim cares about
(16384 / 32768 and 48000 / 24000) are exactly representable in binary
floating point, so the rational model loses nothing there.  Constructing
an `Int16Array` over a buffer whose byte length is odd throws a
`RangeError`, modelled as `none`.
-/

def toInt16 (lo hi : Nat) : Int :=
  let v := (lo % 256) + 256 * (hi % 256)
  if v < 32768 then (v : Int) else (v : Int) - 65536

def bytesToInt16LE : List Nat → List Int
  | lo :: hi :: rest => toInt16 lo hi :: bytesToInt16LE rest
  | _ => []

structure AudioBufferModel where
  numChannels : Nat
  frameCount : Nat
  sampleRate : Nat
  channelData : List (List ℚ)
  deriving DecidableEq, Repr

def AudioBufferModel.duration (b : AudioBufferModel) : ℚ :=
  (b.frameCount : ℚ) / (b.sampleRate : ℚ)

def AudioBufferModel.sampleAt (b : AudioBufferModel) (channel i : Nat) : ℚ :=
  (b.channelData.getD channel []).getD i 0

def decodeAudioData (data : List Nat) (sampleRate : Nat := 24000)
    (numChannels : Nat := 1) : Option AudioBufferModel :=
  if data.length % 2 ≠ 0 then none
  else
    some { numChannels := numChannels
           frameCount := (bytesToInt16LE data).length / numChannels
           sampleRate := sampleRate
           channelData :=
             (List.range numChannels).map fun channel =>
               (List.range ((bytesToInt16LE data).length / numChannels)).map
                 fun i =>
                   (((bytesToInt16LE data).getD (i * numChannels + channel) 0 : ℤ) : ℚ)
                     / 32768 }


theorem bytesToInt16LE_length : ∀ l : List Nat,
    (bytesToInt16LE l).length = l.length / 2
  | [] => by simp [bytesToInt16LE]
  | [a] => by simp [bytesToInt16LE]
  | _ :: _ :: rest => by
    have ih := bytesToInt16LE_length rest
    simp only [bytesToInt16LE, List.length_cons]
    omega

theorem bytesToInt16LE_getD : ∀ (l : List Nat) (i : Nat), i < l.length / 2 →
    (bytesToInt16LE l).getD i 0 =
      toInt16 (l.getD (2 * i) 0) (l.getD (2 * i + 1) 0)
  | [], i, h => by
    simp only [List.length_nil] at h
    omega
  | [a], i, h => by
    simp only [List.length_singleton] at h
    omega
  | a :: b :: rest, 0, _ => by
    simp [bytesToInt16LE, List.getD_cons_zero]
  | a :: b :: rest, i + 1, h => by
    have hrest : i < rest.length / 2 := by
      simp only [List.length_cons] at h
      omega
    have ih := bytesToInt16LE_getD rest i hrest
    have h1 : 2 * (i + 1) = 2 * i + 1 + 1 := by ring
    have h2 : 2 * (i + 1) + 1 = 2 * i + 1 + 1 + 1 := by ring
    simp only [bytesToInt16LE, List.getD_cons_succ, h1, h2]
    exact ih

/-- C8: the PCM decode path views the bytes as signed 16-bit little-endian
mono samples and divides each by 32768: for every even-length input and
every valid frame index, the decoded mono buffer has one frame per byte
pair, duration equal to frame count over the 24000 Hz sample rate, and its
sample `i` equals the signed 16-bit word assembled from bytes `2i` (low)
and `2i+1` (high) divided by 32768; sample value 16384 decodes to exactly
1/2, and every 96000-byte input (48000 samples) decodes to a buffer of
duration exactly 2 seconds. -/
theorem decodeAudioData_pcm_semantics (data : List Nat) (i : Nat)
    (h2 : data.length % 2 = 0) (hi : i < data.length / 2) :
    (∃ buf, decodeAudioData data 24000 1 = some buf ∧
      buf.numChannels = 1 ∧
      buf.frameCount = data.length / 2 ∧
      buf.duration = ((data.length / 2 : ℕ) : ℚ) / 24000 ∧
      buf.sampleAt 0 i =
        ((toInt16 (data.getD (2 * i) 0) (data.getD (2 * i + 1) 0) : ℤ) : ℚ) / 32768) ∧
    toInt16 0 64 = 16384 ∧
    ((toInt16 0 64 : ℤ) : ℚ) / 32768 = 1 / 2 ∧
    (data.length = 96000 →
      ∀ buf2, decodeAudioData data 24000 1 = some buf2 → buf2.duration = 2) := by
  have hlen := bytesToInt16LE_length data
  have hdec : decodeAudioData data 24000 1 = some
      { numChannels := 1
        frameCount := (bytesToInt16LE data).length / 1
        sampleRate := 24000
        channelData :=
          (List.range 1).map fun channel =>
            (List.range ((bytesToInt16LE data).length / 1)).map fun j =>
              (((bytesToInt16LE data).getD (j * 1 + channel) 0 : ℤ) : ℚ) / 32768 } := by
    unfold decodeAudioData
    rw [if_neg (by simp [h2])]
  have hdur : AudioBufferModel.duration
      { numChannels := 1
        frameCount := (bytesToInt16LE data).length / 1
        sampleRate := 24000
        channelData :=
          (List.range 1).map fun channel =>
            (List.range ((bytesToInt16LE data).length / 1)).map fun j =>
              (((bytesToInt16LE data).getD (j * 1 + channel) 0 : ℤ) : ℚ) / 32768 }
      = ((data.length / 2 : ℕ) : ℚ) / 24000 := by
    simp only [AudioBufferModel.duration, Nat.div_one, hlen]
    norm_num
  refine ⟨⟨_, hdec, rfl, ?_, hdur, ?_⟩, by decide, by norm_num [toInt16], ?_⟩
  · simpa using hlen
  · have hfc : (bytesToInt16LE data).length / 1 = data.length / 2 := by
      simpa using hlen
    simp only [AudioBufferModel.sampleAt, hfc]
    have hrange1 : List.range 1 = [0] := rfl
    simp only [hrange1, List.map_cons, List.map_nil, List.getD_cons_zero]
    have hgi : ((List.range (data.length / 2)).map fun j =>
        (((bytesToInt16LE data).getD (j * 1 + 0) 0 : ℤ) : ℚ) / 32768).getD i 0 =
        (((bytesToInt16LE data).getD (i * 1 + 0) 0 : ℤ) : ℚ) / 32768 := by
      rw [List.getD_eq_getElem?_getD, List.getElem?_map, List.getElem?_range hi]
      rfl
    rw [hgi]
    have hidx : i * 1 + 0 = i := by ring
    rw [hidx, bytesToInt16LE_getD data i hi]
  · intro h96 buf2 hbuf2
    have hb : buf2 = _ := Option.some.inj (hbuf2.symm.trans hdec)
    rw [hb, hdur, h96]
    norm_num

/-- Closed witness for C8: the two-byte little-endian input `[0, 64]`
(the encoding of 16384) decodes to a one-frame mono buffer whose only
sample is exactly 1/2. -/
theorem decodeAudioData_pcm_semantics_witness :
    ∃ buf, decodeAudioData [0, 64] 24000 1 = some buf ∧
      buf.sampleAt 0 0 = 1 / 2 := by
  obtain ⟨⟨buf, hbuf, _, _, _, hs⟩, _, hq, _⟩ :=
    decodeAudioData_pcm_semantics [0, 64] 0 (by decide) (by decide)
  refine ⟨buf, hbuf, ?_⟩
  rw [hs]
  simpa using hq

/-! ## PlaybackEngine: the AudioController

`AudioController` from the audio service module (lines 297-392).  The
audio output context is modelled as always available and unlocked (its
lazy creation and suspend/resume states do not affect the claims settled
here).  A connected `AudioBufferSourceNode` is modelled by the buffer it
carries, an identifier for the registered `onended` callback, and whether
its `ended` event has already been dispatched.  Per the Web Audio
platform semantics the `ended` event fires once when a started source
stops playing for any reason: when the buffer finishes naturally and also
when `stop()` is called on it; the code registers `onEnded` inside
`source.onended` and never detaches the handler before stopping, so the
model dispatches the callback in both cases.  Observable actions are
returned as an event list.
-/

structure SourceNode where
  bufferId : Nat
  onEndedCallback : Nat
  endedDispatched : Bool
  deriving DecidableEq, Repr

structure AudioCtrlState where
  currentSource : Option SourceNode
  deriving DecidableEq, Repr

inductive AudioEvent where
  | sourceStarted (bufferId : Nat) : AudioEvent
  | callbackInvoked (callback : Nat) : AudioEvent
  deriving DecidableEq, Repr

def AudioCtrlState.stop (s : AudioCtrlState) : AudioCtrlState × List AudioEvent :=
  match s.currentSource with
  | none => (s, [])
  | some src =>
    ({ currentSource := none },
     if src.endedDispatched then [] else [AudioEvent.callbackInvoked src.onEndedCallback])

def AudioCtrlState.play (s : AudioCtrlState) (bufferId callback : Nat) :
    AudioCtrlState × List AudioEvent :=
  let stopped := s.stop
  ({ currentSource := some
      { bufferId := bufferId, onEndedCallback := callback, endedDispatched := false } },
   stopped.2 ++ [AudioEvent.sourceStarted bufferId])

def AudioCtrlState.naturalEnd (s : AudioCtrlState) : AudioCtrlState × List AudioEvent :=
  match s.currentSource with
  | none => (s, [])
  | some src =>
    if src.endedDispatched then (s, [])
    else
      ({ currentSource := some { src with endedDispatched := true } },
       [AudioEvent.callbackInvoked src.onEndedCallback])

def initialAudioCtrl : AudioCtrlState := { currentSource := none }

/-- C1 evaluated at the failing input: starting from an idle controller,
`play(buffer 7, onEnded 42)` followed by a manual `stop()` leaves no
source connected but invokes the registered `onEnded` callback, because
`stop()` calls `source.stop()` without detaching the `onended` handler and
the platform dispatches `ended` for a manually stopped source.  The claim
says the callback never fires as a consequence of a manual `stop()`. -/
theorem play_then_stop_invokes_onEnded :
    ((initialAudioCtrl.play 7 42).1.stop).2 = [AudioEvent.callbackInvoked 42] ∧
    ((initialAudioCtrl.play 7 42).1.stop).1.currentSource = none ∧
    (initialAudioCtrl.play 7 42).1.currentSource = some
      { bufferId := 7, onEndedCallback := 42, endedDispatched := false } := by
  refine ⟨rfl, rfl, rfl⟩

/-! ## FeedController

The `Feed` component from `src/components/Feed.tsx`.  The controller state
gathers the React state hooks (`currentIndex`, `isPlaying`, `isLoading`,
`progress`) and the mutable refs (`userSkippedWhilePaused`,
`currentRequestId`, `lastLoadedTweetId`); the mounted feed is the list of
track ids.  Handler semantics: within one dispatched handler, reads of
React state see the values current when the handler fired (`useState`
setters are deferred), while ref writes are immediate and last-write-wins;
`handleTrackEnd` therefore computes its inner `handleNext`'s `wasPaused`
from the pre-dispatch `isPlaying`/`isLoading` values, and its own
`userSkippedWhilePaused.current = false` write is overwritten by
`handleNext`'s.  `loadTrackStart` is the load effect up to its `await`
(request-token assignment included); `loadTrackResolve` is the
continuation that runs when `processTweet` settles, with the token it was
tagged with; the `await` boundary is where a competing load may have
replaced the current token.  The observable playback start (`playAudio`,
which records the output-clock start time and calls
`audioController.play`) is an emitted event.
-/

structure FeedState where
  tweets : List String
  currentIndex : Nat
  isPlaying : Bool
  isLoading : Bool
  userSkippedWhilePaused : Bool
  currentRequestId : Option (String × Nat)
  lastLoadedTweetId : Option String
  progress : Nat
  deriving DecidableEq, Repr

inductive FeedEvent where
  | playbackStarted (tid : String) : FeedEvent
  deriving DecidableEq, Repr

def handleNextWith (playingClosure loadingClosure : Bool) (s : FeedState) :
    FeedState :=
  let wasPaused := !playingClosure && !loadingClosure
  { s with userSkippedWhilePaused := wasPaused
           currentIndex := (s.currentIndex + 1) % s.tweets.length
           lastLoadedTweetId := none }

def handleNext (s : FeedState) : FeedState :=
  handleNextWith s.isPlaying s.isLoading s

def handlePrevWith (playingClosure loadingClosure : Bool) (s : FeedState) :
    FeedState :=
  let wasPaused := !playingClosure && !loadingClosure
  { s with userSkippedWhilePaused := wasPaused
           currentIndex := (s.currentIndex + s.tweets.length - 1) % s.tweets.length
           lastLoadedTweetId := none }

def handlePrev (s : FeedState) : FeedState :=
  handlePrevWith s.isPlaying s.isLoading s

def handleTrackEnd (s : FeedState) : FeedState :=
  handleNextWith s.isPlaying s.isLoading
    { s with isPlaying := false
             progress := 100
             userSkippedWhilePaused := false }

def loadTrackStart (s : FeedState) (now : Nat) : FeedState :=
  match s.tweets[s.currentIndex]? with
  | none => s
  | some tid =>
    if s.lastLoadedTweetId = some tid then s
    else
      { s with currentRequestId := some (tid, now)
               isLoading := true
               progress := 0
               isPlaying := false }

def loadTrackResolve (s : FeedState) (token : String × Nat) (success : Bool) :
    FeedState × List FeedEvent :=
  if s.currentRequestId = some token then
    if success then
      if s.userSkippedWhilePaused then
        ({ s with lastLoadedTweetId := some token.1
                  isLoading := false
                  userSkippedWhilePaused := false }, [])
      else
        ({ s with lastLoadedTweetId := some token.1
                  isLoading := false
                  isPlaying := true }, [FeedEvent.playbackStarted token.1])
    else
      ({ s with isLoading := false }, [])
  else
    (s, [])

def togglePlay (s : FeedState) : FeedState :=
  if s.isLoading then s
  else if s.isPlaying then { s with isPlaying := false }
  else { s with isPlaying := true }

def sampleFeedState : FeedState :=
  { tweets := ["a", "b"], currentIndex := 0, isPlaying := false,
    isLoading := false, userSkippedWhilePaused := false,
    currentRequestId := none, lastLoadedTweetId := some "a", progress := 0 }

theorem handleNext_spec (s : FeedState) :
    handleNext s =
      { s with userSkippedWhilePaused := !s.isPlaying && !s.isLoading
               currentIndex := (s.currentIndex + 1) % s.tweets.length
               lastLoadedTweetId := none } := rfl

theorem handlePrev_spec (s : FeedState) :
    handlePrev s =
      { s with userSkippedWhilePaused := !s.isPlaying && !s.isLoading
               currentIndex := (s.currentIndex + s.tweets.length - 1) % s.tweets.length
               lastLoadedTweetId := none } := rfl

theorem handleTrackEnd_spec (s : FeedState) :
    handleTrackEnd s =
      { s with userSkippedWhilePaused := !s.isPlaying && !s.isLoading
               currentIndex := (s.currentIndex + 1) % s.tweets.length
               lastLoadedTweetId := none
               isPlaying := false
               progress := 100 } := rfl

theorem loadTrackStart_spec (s : FeedState) (now : Nat) (tid : String)
    (htid : s.tweets[s.currentIndex]? = some tid)
    (hnl : s.lastLoadedTweetId ≠ some tid) :
    loadTrackStart s now =
      { s with currentRequestId := some (tid, now)
               isLoading := true
               progress := 0
               isPlaying := false } := by
  unfold loadTrackStart
  simp only [htid]
  rw [if_neg hnl]

theorem loadTrackResolve_stale (s : FeedState) (token : String × Nat)
    (success : Bool) (hcur : s.currentRequestId ≠ some token) :
    loadTrackResolve s token success = (s, []) := by
  unfold loadTrackResolve
  rw [if_neg hcur]

theorem loadTrackResolve_suppressed (s : FeedState) (token : String × Nat)
    (hcur : s.currentRequestId = some token)
    (hskip : s.userSkippedWhilePaused = true) :
    loadTrackResolve s token true =
      ({ s with lastLoadedTweetId := some token.1
                isLoading := false
                userSkippedWhilePaused := false }, []) := by
  unfold loadTrackResolve
  rw [if_pos hcur]
  simp [hskip]

theorem loadTrackResolve_autoplay (s : FeedState) (token : String × Nat)
    (hcur : s.currentRequestId = some token)
    (hnoskip : s.userSkippedWhilePaused = false) :
    loadTrackResolve s token true =
      ({ s with lastLoadedTweetId := some token.1
                isLoading := false
                isPlaying := true }, [FeedEvent.playbackStarted token.1]) := by
  unfold loadTrackResolve
  rw [if_pos hcur]
  simp [hnoskip]

theorem loadTrackResolve_failure (s : FeedState) (token : String × Nat)
    (hcur : s.currentRequestId = some token) :
    loadTrackResolve s token false = ({ s with isLoading := false }, []) := by
  unfold loadTrackResolve
  rw [if_pos hcur]
  simp

/-- C2: skipping next or prev while paused (not playing, not loading) sets
the one-shot suppression flag; when the load of the newly selected track
resolves successfully with its token still current, playback does not
auto-start (no playback event, still not playing) and the flag is cleared;
a failed load does not start playback either, so without an explicit
toggle the new track never plays. -/
theorem skip_while_paused_suppresses_autoplay
    (s : FeedState) (now : Nat) (tid : String)
    (hp : s.isPlaying = false) (hl : s.isLoading = false)
    (htid : (handleNext s).tweets[(handleNext s).currentIndex]? = some tid) :
    (handleNext s).userSkippedWhilePaused = true ∧
    (handlePrev s).userSkippedWhilePaused = true ∧
    (loadTrackResolve (loadTrackStart (handleNext s) now) (tid, now) true).2 = [] ∧
    (loadTrackResolve (loadTrackStart (handleNext s) now) (tid, now) true).1.isPlaying
      = false ∧
    (loadTrackResolve (loadTrackStart (handleNext s) now)
      (tid, now) true).1.userSkippedWhilePaused = false ∧
    (loadTrackResolve (loadTrackStart (handleNext s) now) (tid, now) false).2 = [] := by
  have hflag : (handleNext s).userSkippedWhilePaused = true := by
    rw [handleNext_spec]
    simp [hp, hl]
  have hflagP : (handlePrev s).userSkippedWhilePaused = true := by
    rw [handlePrev_spec]
    simp [hp, hl]
  have hnl : (handleNext s).lastLoadedTweetId ≠ some tid := by
    rw [handleNext_spec]
    simp
  have hload := loadTrackStart_spec (handleNext s) now tid htid hnl
  have hcur : (loadTrackStart (handleNext s) now).currentRequestId
      = some (tid, now) := by
    rw [hload]
  have hskip : (loadTrackStart (handleNext s) now).userSkippedWhilePaused = true := by
    rw [hload]
    exact hflag
  have hres := loadTrackResolve_suppressed (loadTrackStart (handleNext s) now)
    (tid, now) hcur hskip
  have hfail := loadTrackResolve_failure (loadTrackStart (handleNext s) now)
    (tid, now) hcur
  refine ⟨hflag, hflagP, ?_, ?_, ?_, ?_⟩
  · rw [hres]
  · rw [hres, hload, handleNext_spec]
  · rw [hres]
  · rw [hfail]

/-- Closed witness for C2 at a concrete two-track feed paused on track
`a`: after a skip, the successful resolution of track `b`'s load emits no
playback event and clears the flag. -/
theorem skip_while_paused_suppresses_autoplay_witness :
    (loadTrackResolve (loadTrackStart (handleNext sampleFeedState) 5)
      ("b", 5) true).2 = [] ∧
    (loadTrackResolve (loadTrackStart (handleNext sampleFeedState) 5)
      ("b", 5) true).1.userSkippedWhilePaused = false := by
  have h := skip_while_paused_suppresses_autoplay sampleFeedState 5 "b" rfl rfl
    (by decide)
  exact ⟨h.2.2.1, h.2.2.2.2.1⟩

def sampleLoadingState : FeedState :=
  { tweets := ["a", "b"], currentIndex := 0, isPlaying := false,
    isLoading := true, userSkippedWhilePaused := false,
    currentRequestId := some ("a", 1), lastLoadedTweetId := none, progress := 0 }

/-- C3: every track load is tagged with a fresh request token made of the
track id and the load timestamp; a completion whose token is no longer the
controller's current token is discarded without changing the state and
without starting playback; a completion whose token is still current (and
with no skip suppression pending) applies its result and starts
playback. -/
theorem load_token_gating
    (s : FeedState) (now : Nat) (tid : String) (token : String × Nat)
    (success : Bool) :
    (s.tweets[s.currentIndex]? = some tid → s.lastLoadedTweetId ≠ some tid →
      (loadTrackStart s now).currentRequestId = some (tid, now)) ∧
    (s.currentRequestId ≠ some token →
      loadTrackResolve s token success = (s, [])) ∧
    (s.currentRequestId = some token → s.userSkippedWhilePaused = false →
      (loadTrackResolve s token true).1.lastLoadedTweetId = some token.1 ∧
      (loadTrackResolve s token true).1.isLoading = false ∧
      (loadTrackResolve s token true).2 = [FeedEvent.playbackStarted token.1]) := by
  refine ⟨?_, ?_, ?_⟩
  · intro htid hnl
    rw [loadTrackStart_spec s now tid htid hnl]
  · intro hcur
    exact loadTrackResolve_stale s token success hcur
  · intro hcur hnoskip
    rw [loadTrackResolve_autoplay s token hcur hnoskip]
    exact ⟨rfl, rfl, rfl⟩

/-- Closed witness for C3: a concrete loading state whose current token is
for track `a` discards the completion of a superseded token for track `b`
unchanged, while its own completion is applied and starts playback. -/
theorem load_token_gating_witness :
    loadTrackResolve sampleLoadingState ("b", 2) true = (sampleLoadingState, []) ∧
    (loadTrackResolve sampleLoadingState ("a", 1) true).2 =
      [FeedEvent.playbackStarted "a"] := by
  have h1 := (load_token_gating sampleLoadingState 0 "a" ("b", 2) true).2.1
    (by decide)
  have h2 := (load_token_gating sampleLoadingState 0 "a" ("a", 1) true).2.2
    rfl rfl
  exact ⟨h1, h2.2.2⟩

def sampleFeedPlaying : FeedState :=
  { tweets := ["a", "b", "c", "d"], currentIndex := 3, isPlaying := true,
    isLoading := false, userSkippedWhilePaused := false,
    currentRequestId := none, lastLoadedTweetId := some "d", progress := 50 }

/-- C9: for a non-empty feed, natural end of playback advances the index
by exactly one modulo the feed length, clears the suppression flag, marks
progress at 100 and stops the playing state, and the subsequent load of
the advanced track auto-plays on completion; skipping next at the last
index wraps to index 0, and skipping prev at index 0 wraps to the last
index. -/
theorem trackEnd_advances_and_autoplays
    (s : FeedState) (now : Nat) (tid : String)
    (hne : s.tweets ≠ []) (hp : s.isPlaying = true)
    (htid : (handleTrackEnd s).tweets[(handleTrackEnd s).currentIndex]?
      = some tid) :
    (handleTrackEnd s).currentIndex = (s.currentIndex + 1) % s.tweets.length ∧
    (handleTrackEnd s).userSkippedWhilePaused = false ∧
    (handleTrackEnd s).isPlaying = false ∧
    (handleTrackEnd s).progress = 100 ∧
    (loadTrackResolve (loadTrackStart (handleTrackEnd s) now) (tid, now) true).2
      = [FeedEvent.playbackStarted tid] ∧
    (loadTrackResolve (loadTrackStart (handleTrackEnd s) now)
      (tid, now) true).1.isPlaying = true ∧
    (s.currentIndex = s.tweets.length - 1 → (handleNext s).currentIndex = 0) ∧
    (s.currentIndex = 0 → (handlePrev s).currentIndex = s.tweets.length - 1) := by
  have hlen : 0 < s.tweets.length := List.length_pos.mpr hne
  have hflag : (handleTrackEnd s).userSkippedWhilePaused = false := by
    rw [handleTrackEnd_spec]
    simp [hp]
  have hnl : (handleTrackEnd s).lastLoadedTweetId ≠ some tid := by
    rw [handleTrackEnd_spec]
    simp
  have hload := loadTrackStart_spec (handleTrackEnd s) now tid htid hnl
  have hcur : (loadTrackStart (handleTrackEnd s) now).currentRequestId
      = some (tid, now) := by
    rw [hload]
  have hnoskip : (loadTrackStart (handleTrackEnd s) now).userSkippedWhilePaused
      = false := by
    rw [hload]
    exact hflag
  have hres := loadTrackResolve_autoplay (loadTrackStart (handleTrackEnd s) now)
    (tid, now) hcur hnoskip
  refine ⟨by rw [handleTrackEnd_spec], hflag, by rw [handleTrackEnd_spec],
    by rw [handleTrackEnd_spec], by rw [hres], by rw [hres], ?_, ?_⟩
  · intro hidx
    rw [handleNext_spec]
    show (s.currentIndex + 1) % s.tweets.length = 0
    rw [hidx, Nat.sub_add_cancel hlen, Nat.mod_self]
  · intro hidx
    rw [handlePrev_spec]
    show (s.currentIndex + s.tweets.length - 1) % s.tweets.length
      = s.tweets.length - 1
    rw [hidx, Nat.zero_add]
    exact Nat.mod_eq_of_lt (by omega)

/-- Closed witness for C9 at the claim's own scenario: a four-track feed
playing at index 3; natural end wraps the index to 0, the load of the
wrapped-to track auto-plays on completion, and next wraps to 0. -/
theorem trackEnd_advances_and_autoplays_witness :
    (handleTrackEnd sampleFeedPlaying).currentIndex = 0 ∧
    (loadTrackResolve (loadTrackStart (handleTrackEnd sampleFeedPlaying) 9)
      ("a", 9) true).2 = [FeedEvent.playbackStarted "a"] ∧
    (handleNext sampleFeedPlaying).currentIndex = 0 := by
  have h := trackEnd_advances_and_autoplays sampleFeedPlaying 9 "a"
    (by decide) rfl (by decide)
  exact ⟨h.1.trans (by decide), h.2.2.2.2.1, h.2.2.2.2.2.2.1 (by decide)⟩
